import Mathlib

/-!
Verification of the cell-widget module of jupyter-js-notebook
(`src/cells/widget.ts`), as a shallow embedding in Lean 4.

The module defines a base cell view (`BaseCellWidget`), a markdown cell
view (`MarkdownCellWidget`) with a dirty-flag driven render pipeline, a
code cell view and a raw cell view.  Strings of the source are modelled
as `List Char` where character-level reasoning is needed and as `String`
for opaque class names.  The markdown render pipeline calls the math
guard (`removeMath` / `replaceMath`, named `extractMath` / `restoreMath`
in the specification); that pair lives in `utils/latex.ts`, which is not
part of the sources at hand, so it is modelled from the specification.
-/

/-! ## Math guard (modelled from the spec)

The specification, section 4.1: `extractMath(text)` scans `text` for
math-expression delimiters (inline `$...$` and block `$$...$$`),
replaces each math expression with a unique placeholder token, and
returns the stripped text together with the order-preserving mapping
from token index to original expression; `restoreMath(html, mapping)`
replaces each placeholder token occurring in `html` with its original
math expression, verbatim, in a single pass.  Unmatched delimiters
degrade gracefully to literal text (section 7). -/

/-- The unique placeholder token standing for the `n`-th math
expression.  Modelled from the spec: a token scheme that is injective in
`n` and recognisable in the rendered output. -/
def placeholder (n : Nat) : List Char :=
  '@' :: '@' :: (List.replicate n '#' ++ ['@', '@'])

/-- Try to read a placeholder token at the head of `l`; on success
return its index and the remainder of `l` after the token. -/
def parseToken : List Char → Option (Nat × List Char)
  | a :: b :: rest =>
    if a == '@' && b == '@' then
      match rest.dropWhile (fun c => c == '#') with
      | c :: d :: tail =>
        if c == '@' && d == '@' then
          some ((rest.takeWhile (fun c => c == '#')).length, tail)
        else none
      | _ => none
    else none
  | _ => none

/-- Split a character list at the first `'$'`, returning the part
before it and the part after it (the `'$'` itself removed). -/
def splitAtDollar : List Char → Option (List Char × List Char)
  | [] => none
  | c :: rest =>
    if c = '$' then some ([], rest)
    else (splitAtDollar rest).map (fun p => (c :: p.1, p.2))

/-- Split a character list at the first occurrence of `"$$"`, returning
the part before it and the part after it. -/
def splitAtDD : List Char → Option (List Char × List Char)
  | [] => none
  | [_] => none
  | c :: d :: rest =>
    if c = '$' ∧ d = '$' then some ([], rest)
    else (splitAtDD (d :: rest)).map (fun p => (c :: p.1, p.2))

/-- Modelled from the spec: the scanning core of `extractMath`
(`removeMath` in the source's imports).  `fuel` bounds the recursion and
is instantiated with the length of the scanned text, which every step
strictly decreases.  Returns the stripped text and the list of math
expressions (delimiters included) in occurrence order. -/
def extractMathAux : Nat → List Char → Nat → List Char × List (List Char)
  | _, [], _ => ([], [])
  | 0, l, _ => (l, [])
  | fuel + 1, '$' :: '$' :: rest, n =>
    match splitAtDD rest with
    | some p =>
      let r := extractMathAux fuel p.2 (n + 1)
      (placeholder n ++ r.1, ('$' :: '$' :: (p.1 ++ ['$', '$'])) :: r.2)
    | none =>
      let r := extractMathAux fuel rest n
      ('$' :: '$' :: r.1, r.2)
  | fuel + 1, '$' :: rest, n =>
    match splitAtDollar rest with
    | some p =>
      let r := extractMathAux fuel p.2 (n + 1)
      (placeholder n ++ r.1, ('$' :: (p.1 ++ ['$'])) :: r.2)
    | none => ('$' :: rest, [])
  | fuel + 1, c :: rest, n =>
    let r := extractMathAux fuel rest n
    (c :: r.1, r.2)

/-- Modelled from the spec: `extractMath(text)` returns the stripped
text (math replaced by placeholder tokens) and the token mapping. -/
def extractMath (t : List Char) : List Char × List (List Char) :=
  extractMathAux t.length t 0

/-- Modelled from the spec: single left-to-right pass of `restoreMath`.
At each position, if a placeholder token of the mapping begins there it
is replaced by its math expression (which is emitted and not rescanned);
otherwise one character is copied.  `fuel` bounds the recursion and is
instantiated with the length of the input, which every step strictly
decreases. -/
def restoreMathAux (mapping : List (List Char)) : Nat → List Char → List Char
  | _, [] => []
  | 0, l => l
  | fuel + 1, c :: rest =>
    match parseToken (c :: rest) with
    | some nr =>
      if nr.1 < mapping.length then
        mapping.getD nr.1 [] ++ restoreMathAux mapping fuel nr.2
      else c :: restoreMathAux mapping fuel rest
    | none => c :: restoreMathAux mapping fuel rest

/-- Modelled from the spec: `restoreMath(html, mapping)` replaces each
placeholder token in `html` by its original math expression. -/
def restoreMath (mapping : List (List Char)) (html : List Char) : List Char :=
  restoreMathAux mapping html.length html

/-- `begins pat l` holds when `pat` is an initial run of `l`. -/
def begins : List Char → List Char → Bool
  | [], _ => true
  | _ :: _, [] => false
  | p :: ps, c :: cs => p == c && begins ps cs

/-- `segIn pat l` holds when `pat` occurs contiguously inside `l`. -/
def segIn (pat : List Char) : List Char → Bool
  | [] => begins pat []
  | c :: cs => begins pat (c :: cs) || segIn pat cs

/-- `weave i ps` interleaves the pieces `ps` with the placeholder tokens
`i`, `i+1`, ...: it is the shape of a rendered text in which the tokens
survived and only the prose around them was transformed. -/
def weave : Nat → List (List Char) → List Char
  | _, [] => []
  | _, [p] => p
  | i, p :: q :: tl => p ++ placeholder i ++ weave (i + 1) (q :: tl)

/-- `weaveM m i ps` is `weave i ps` with every placeholder token
replaced by its math expression from `m`. -/
def weaveM (m : List (List Char)) : Nat → List (List Char) → List Char
  | _, [] => []
  | _, [p] => p
  | i, p :: q :: tl => p ++ m.getD i [] ++ weaveM m (i + 1) (q :: tl)

/-! ## Cell model (external collaborator, section 6 of the spec)

Four boolean facets plus the input sub-model (text and mimetype of its
text editor). -/

structure TextEditorModel where
  text : List Char
  mimetype : String

structure InputAreaModel where
  textEditor : TextEditorModel

structure ICellModel where
  selected : Bool
  marked : Bool
  focused : Bool
  rendered : Bool
  input : InputAreaModel

/-- A change notification: the facet name and its new value
(`IChangedArgs` in the source). -/
structure Args where
  name : String
  newValue : Bool

/-! ## Widget state

The DOM-facing state of a markdown cell widget: its CSS class list, the
children of its stacked layout in stacking order, the dirty flag, the
`innerHTML` of the rendered node, and the coalesced pending-update flag
of the phosphor message loop. -/

inductive Child
  | inputW
  | renderedW
deriving DecidableEq

/-- Observable side effects of the markdown update pipeline: the math
extraction, the markdown conversion, the replacement of the rendered
node's HTML, the typesetting call, and the editor focus call. -/
inductive Ev
  | removeMathEv
  | convertEv
  | replaceMathEv
  | typesetEv
  | focusEv
deriving DecidableEq

structure MdWidget where
  classes : List String
  layoutChildren : List Child
  dirty : Bool
  renderedHTML : List Char
  pendingUpdate : Bool

def CELL_CLASS : String := "jp-Cell"

def SELECTED_CLASS : String := "jp-mod-selected"

def MARKED_CLASS : String := "jp-mod-marked"

def MARKDOWN_CELL_CLASS : String := "jp-MarkdownCell"

def RENDERED_CLASS : String := "jp-mod-rendered"

def FOCUSED_CLASS : String := "jp-mod-focused"

/-- `Widget.addClass`: add a CSS class if not already present. -/
def addClassL (cs : List String) (c : String) : List String :=
  if c ∈ cs then cs else cs ++ [c]

/-- `Widget.removeClass`: remove a CSS class. -/
def removeClassL (cs : List String) (c : String) : List String :=
  cs.filter (fun x => x ≠ c)

/-- `PanelLayout.addChild` / `StackedLayout.addChild`: append a child,
moving it if it is already a child. -/
def addChild (l : List Child) (c : Child) : List Child :=
  l.filter (fun x => x ≠ c) ++ [c]

/-- `StackedLayout.insertChild i c`: insert `c` at index `i`, moving it
if it is already a child. -/
def insertChild (i : Nat) (c : Child) (l : List Child) : List Child :=
  let l' := l.filter (fun x => x ≠ c)
  l'.take i ++ c :: l'.drop i

/-- `BaseCellWidget.onUpdateRequest` (lines 127-144 of the source): set
or clear the three facet flags from the model. -/
def baseUpdateClasses (m : ICellModel) (cs : List String) : List String :=
  let cs1 := if m.selected then addClassL cs SELECTED_CLASS
             else removeClassL cs SELECTED_CLASS
  let cs2 := if m.marked then addClassL cs1 MARKED_CLASS
             else removeClassL cs1 MARKED_CLASS
  if m.focused then addClassL cs2 FOCUSED_CLASS
  else removeClassL cs2 FOCUSED_CLASS

/-- `BaseCellWidget.onModelChanged` (lines 149-154): schedule a
coalesced update; if the notification reports `focused` becoming true,
focus the input editor synchronously. -/
def baseOnModelChanged (w : MdWidget) (args : Args) : MdWidget × List Ev :=
  ({ w with pendingUpdate := true },
   if args.name == "focused" && args.newValue then [Ev.focusEv] else [])

/-- `MarkdownCellWidget.onModelChanged` (lines 253-261): the base
handler, then on a `rendered` notification set the dirty flag and
schedule an update. -/
def mdOnModelChanged (w : MdWidget) (args : Args) : MdWidget × List Ev :=
  let r := baseOnModelChanged w args
  if args.name == "rendered" then
    ({ r.1 with dirty := true, pendingUpdate := true }, r.2)
  else r

/-- The events of one run of the render pipeline, in source order:
`removeMath`, `marked`, `replaceMath` into `innerHTML`, `typeset`. -/
def renderEvents : List Ev :=
  [Ev.removeMathEv, Ev.convertEv, Ev.replaceMathEv, Ev.typesetEv]

/-- The dirty-guarded render step of `MarkdownCellWidget.onUpdateRequest`
(lines 234-239): when dirty, strip the math from the editor text, run
the markdown converter `conv`, restore the math into the produced HTML,
store it as the rendered node's HTML and typeset. -/
def mdRenderStep (conv : List Char → List Char) (m : ICellModel)
    (w : MdWidget) : MdWidget × List Ev :=
  if w.dirty then
    let data := extractMath m.input.textEditor.text
    let html := conv data.1
    ({ w with renderedHTML := restoreMath data.2 html }, renderEvents)
  else (w, [])

/-- `MarkdownCellWidget.onUpdateRequest` (lines 231-248): when the
`rendered` facet is true, run the dirty-guarded render step, move the
rendered node to the top stacking slot and add the rendered flag;
otherwise move the input view to the top slot and remove the rendered
flag.  Then clear the dirty flag unconditionally (line 246) and run the
base update (line 247). -/
def mdOnUpdateRequest (conv : List Char → List Char) (m : ICellModel)
    (w : MdWidget) : MdWidget × List Ev :=
  if m.rendered then
    let r := mdRenderStep conv m w
    ({ r.1 with
        layoutChildren := insertChild 1 Child.renderedW r.1.layoutChildren,
        classes := baseUpdateClasses m (addClassL r.1.classes RENDERED_CLASS),
        dirty := false }, r.2)
  else
    ({ w with
        layoutChildren := insertChild 1 Child.inputW w.layoutChildren,
        classes := baseUpdateClasses m (removeClassL w.classes RENDERED_CLASS),
        dirty := false }, [])

/-- Drain the coalesced update queue: apply `onUpdateRequest` once if an
update is pending (spec section 5: N notifications before the drain
yield one application, at drain-time model state). -/
def drain (conv : List Char → List Char) (m : ICellModel)
    (w : MdWidget) : MdWidget × List Ev :=
  if w.pendingUpdate then
    let r := mdOnUpdateRequest conv m w
    ({ r.1 with pendingUpdate := false }, r.2)
  else (w, [])

/-- One notification followed by one drain of the update queue, with
the concatenated event trace. -/
def notifyThenDrain (conv : List Char → List Char) (m : ICellModel)
    (w : MdWidget) (args : Args) : MdWidget × List Ev :=
  let r1 := mdOnModelChanged w args
  let r2 := drain conv m r1.1
  (r2.1, r1.2 ++ r2.2)

/-- `model.stateChanged.connect(this.onModelChanged, this)` (line 101):
register the view `v` on the model's subscription list. -/
def connectModel (subs : List Nat) (v : Nat) : List Nat :=
  subs ++ [v]

/-- Modelled from the spec: destruction of a view releases its
subscription handle (section 9, observer-based model binding); the
disposal itself is inherited from the external widget base class and is
not part of the sources at hand. -/
def disposeView (subs : List Nat) (v : Nat) : List Nat :=
  subs.filter (fun x => x ≠ v)

/-- The result of running the `MarkdownCellWidget` constructor: the
widget state, the (mutated) model, and the model's subscription list. -/
structure MdConstructed where
  widget : MdWidget
  model : ICellModel
  subs : List Nat

/-- `MarkdownCellWidget` constructor (lines 206-216), including the
`BaseCellWidget` constructor (lines 94-102): add the cell and markdown
classes, register on the model, force the editor mimetype to
`text/x-ipythongfm`, add the input view then the rendered view to the
stacked layout, and schedule an initial update.  The dirty flag starts
true (line 264). -/
def mdConstruct (m : ICellModel) (subs : List Nat) (v : Nat) : MdConstructed :=
  { widget :=
      { classes := addClassL (addClassL [] CELL_CLASS) MARKDOWN_CELL_CLASS,
        layoutChildren := addChild (addChild [] Child.inputW) Child.renderedW,
        dirty := true,
        renderedHTML := [],
        pendingUpdate := true },
    model :=
      { m with input :=
          { textEditor :=
              { m.input.textEditor with mimetype := "text/x-ipythongfm" } } },
    subs := connectModel subs v }

/-! ## Concrete inputs used by witnesses and counterexamples -/

def idConv : List Char → List Char := fun l => l

def edWit : TextEditorModel := { text := [], mimetype := "text/plain" }

def inWit : InputAreaModel := { textEditor := edWit }

def modelRWit : ICellModel :=
  { selected := true, marked := false, focused := true, rendered := true,
    input := inWit }

def modelEWit : ICellModel :=
  { selected := false, marked := true, focused := false, rendered := false,
    input := inWit }

def widgetWit : MdWidget :=
  { classes := [CELL_CLASS, MARKDOWN_CELL_CLASS],
    layoutChildren := [Child.inputW, Child.renderedW],
    dirty := true, renderedHTML := [], pendingUpdate := true }

def widgetCleanWit : MdWidget :=
  { classes := [CELL_CLASS, MARKDOWN_CELL_CLASS],
    layoutChildren := [Child.inputW, Child.renderedW],
    dirty := false, renderedHTML := ['h', 'i'], pendingUpdate := false }

def tWit : List Char := "Energy: $E=mc^2$ rules.".toList

def psWit : List (List Char) := ["Energy: ".toList, " rules.".toList]

/-! ## Lemmas about the math guard -/

theorem parseToken_ne (c : Char) (l : List Char) (h : c ≠ '@') :
    parseToken (c :: l) = none := by
  cases l with
  | nil => rfl
  | cons b rest =>
    have hb : (c == '@') = false := beq_eq_false_iff_ne.mpr h
    simp [parseToken, hb]

theorem dropWhile_hash_replicate (i : Nat) (l : List Char) :
    List.dropWhile (fun c => c == '#') (List.replicate i '#' ++ '@' :: '@' :: l)
      = '@' :: '@' :: l := by
  rw [List.dropWhile_append_of_pos]
  · simp [List.dropWhile_cons]
  · intro a ha
    rw [List.eq_of_mem_replicate ha]
    simp

theorem takeWhile_hash_replicate (i : Nat) (l : List Char) :
    List.takeWhile (fun c => c == '#') (List.replicate i '#' ++ '@' :: '@' :: l)
      = List.replicate i '#' := by
  rw [List.takeWhile_append_of_pos]
  · simp [List.takeWhile_cons]
  · intro a ha
    rw [List.eq_of_mem_replicate ha]
    simp

theorem parseToken_placeholder (i : Nat) (l : List Char) :
    parseToken ('@' :: '@' :: (List.replicate i '#' ++ '@' :: '@' :: l))
      = some (i, l) := by
  simp [parseToken, dropWhile_hash_replicate, takeWhile_hash_replicate]

theorem placeholder_append (i : Nat) (l : List Char) :
    placeholder i ++ l = '@' :: '@' :: (List.replicate i '#' ++ '@' :: '@' :: l) := by
  simp [placeholder]

theorem placeholder_length (i : Nat) : (placeholder i).length = i + 4 := by
  simp [placeholder]

theorem restoreAux_nil (m : List (List Char)) (f : Nat) :
    restoreMathAux m f [] = [] := by
  cases f <;> rfl

theorem restoreAux_step_none (m : List (List Char)) (f : Nat) (c : Char)
    (rest : List Char) (h : parseToken (c :: rest) = none) :
    restoreMathAux m (f + 1) (c :: rest) = c :: restoreMathAux m f rest := by
  simp [restoreMathAux, h]

theorem restoreAux_token (m : List (List Char)) (i : Nat) (rest : List Char)
    (hi : i < m.length) (f : Nat) :
    restoreMathAux m (f + 1) (placeholder i ++ rest)
      = m.getD i [] ++ restoreMathAux m f rest := by
  rw [placeholder_append]
  simp [restoreMathAux, parseToken_placeholder, hi]

theorem restoreAux_prose (m : List (List Char)) (p : List Char)
    (hAt : '@' ∉ p) (rest : List Char) :
    ∀ fuel, p.length ≤ fuel →
      restoreMathAux m fuel (p ++ rest)
        = p ++ restoreMathAux m (fuel - p.length) rest := by
  induction p with
  | nil => intro fuel _; simp
  | cons c p ih =>
    intro fuel hf
    have hc : c ≠ '@' := by
      intro h
      exact hAt (by simp [h])
    have hp : '@' ∉ p := by
      intro h
      exact hAt (by simp [h])
    cases fuel with
    | zero => simp at hf
    | succ f =>
      have hlen : p.length ≤ f := by
        simp at hf
        omega
      rw [List.cons_append,
        restoreAux_step_none m f c (p ++ rest) (parseToken_ne c _ hc),
        ih hp f hlen]
      simp [Nat.succ_sub_succ]

theorem restore_weave (m : List (List Char)) :
    ∀ (ps : List (List Char)) (i fuel : Nat),
      (∀ p ∈ ps, '@' ∉ p) → i + ps.length ≤ m.length + 1 →
      (weave i ps).length ≤ fuel →
      restoreMathAux m fuel (weave i ps) = weaveM m i ps := by
  intro ps
  induction ps with
  | nil => intro i fuel _ _ _; simp [weave, weaveM, restoreAux_nil]
  | cons p tl ih =>
    intro i fuel hAt hb hf
    cases tl with
    | nil =>
      have hp : '@' ∉ p := hAt p (by simp)
      have h1 : restoreMathAux m fuel (p ++ [])
          = p ++ restoreMathAux m (fuel - p.length) [] := by
        apply restoreAux_prose m p hp [] fuel
        simpa [weave] using hf
      simp [weave, weaveM]
      simpa [restoreAux_nil] using h1
    | cons q tl' =>
      have hp : '@' ∉ p := hAt p (by simp)
      have hweave : weave i (p :: q :: tl')
          = p ++ (placeholder i ++ weave (i + 1) (q :: tl')) := by
        simp [weave]
      have hlenp : p.length ≤ fuel := by
        rw [hweave] at hf
        simp at hf
        omega
      have hi : i < m.length := by
        simp at hb
        omega
      obtain ⟨f, hfeq, hfge⟩ :
          ∃ f, fuel - p.length = f + 1 ∧ (weave (i + 1) (q :: tl')).length ≤ f := by
        rw [hweave] at hf
        simp [placeholder_length] at hf
        refine ⟨fuel - p.length - 1, by omega, by omega⟩
      rw [hweave, restoreAux_prose m p hp _ fuel hlenp, hfeq,
        restoreAux_token m i _ hi f,
        ih (i + 1) f (fun r hr => hAt r (by simp [hr])) (by simp at hb ⊢; omega) hfge]
      simp [weaveM]

theorem begins_append_self (x b : List Char) : begins x (x ++ b) = true := by
  induction x with
  | nil => rfl
  | cons c cs ih => simp [begins, ih]

theorem segIn_of_begins (x l : List Char) (h : begins x l = true) :
    segIn x l = true := by
  cases l with
  | nil => simpa [segIn] using h
  | cons c cs => simp [segIn, h]

theorem segIn_here (x b : List Char) : segIn x (x ++ b) = true :=
  segIn_of_begins x (x ++ b) (begins_append_self x b)

theorem segIn_append_left (x s t : List Char) (h : segIn x t = true) :
    segIn x (s ++ t) = true := by
  induction s with
  | nil => simpa using h
  | cons c cs ih => simp [segIn, ih]

theorem segIn_mid (x s t : List Char) : segIn x (s ++ (x ++ t)) = true :=
  segIn_append_left x s (x ++ t) (segIn_here x t)

theorem segIn_weaveM (m : List (List Char)) :
    ∀ (ps : List (List Char)) (i j : Nat), i ≤ j → j + 1 < i + ps.length →
      segIn (m.getD j []) (weaveM m i ps) = true := by
  intro ps
  induction ps with
  | nil => intro i j hij hlt; simp at hlt; omega
  | cons p tl ih =>
    intro i j hij hlt
    cases tl with
    | nil => simp at hlt; omega
    | cons q tl' =>
      rcases Nat.eq_or_lt_of_le hij with heq | hlt2
      · subst heq
        simpa [weaveM] using segIn_mid (m.getD i []) p (weaveM m (i + 1) (q :: tl'))
      · have hrec : segIn (m.getD j []) (weaveM m (i + 1) (q :: tl')) = true := by
          apply ih (i + 1) j hlt2
          simp at hlt ⊢
          omega
        have heq : weaveM m i (p :: q :: tl')
            = p ++ (m.getD i [] ++ weaveM m (i + 1) (q :: tl')) := by
          simp only [weaveM, List.append_assoc]
        rw [heq]
        exact segIn_append_left _ _ _
          (segIn_append_left _ _ _ hrec)

/-- C3: for every input text `t`, restoring math into the
markdown-rendered form of the math-stripped text yields output that
contains every math expression of `t` byte-identical, for every
renderer that transforms only the surrounding prose (its output on the
stripped text is the placeholder tokens, in order, with arbitrary
token-free prose pieces around them). -/
theorem roundtrip_math_preserved (t : List Char)
    (render : List Char → List Char) (ps : List (List Char))
    (hlen : ps.length = (extractMath t).2.length + 1)
    (hAt : ∀ p ∈ ps, '@' ∉ p)
    (hr : render (extractMath t).1 = weave 0 ps) :
    ∀ x ∈ (extractMath t).2,
      segIn x (restoreMath (extractMath t).2 (render (extractMath t).1))
        = true := by
  intro x hx
  rw [hr]
  unfold restoreMath
  rw [restore_weave (extractMath t).2 ps 0 ((weave 0 ps).length) hAt
    (by omega) (Nat.le_refl _)]
  obtain ⟨j, hj, hgx⟩ := List.mem_iff_getElem.mp hx
  have hg : (extractMath t).2.getD j [] = x := by
    rw [List.getD_eq_getElem _ _ hj, hgx]
  rw [← hg]
  exact segIn_weaveM (extractMath t).2 ps 0 j (Nat.zero_le j) (by omega)

/-- C3 witness: the spec's own scenario text, with the identity
renderer: the output of the pipeline contains `$E=mc^2$` verbatim. -/
theorem roundtrip_math_preserved_witness :
    (psWit.length = (extractMath tWit).2.length + 1
      ∧ (∀ p ∈ psWit, '@' ∉ p)
      ∧ idConv (extractMath tWit).1 = weave 0 psWit)
    ∧ (∀ x ∈ (extractMath tWit).2,
        segIn x (restoreMath (extractMath tWit).2 (idConv (extractMath tWit).1))
          = true) :=
  ⟨⟨by decide, by decide, by decide⟩,
   roundtrip_math_preserved tWit idConv psWit (by decide) (by decide)
     (by decide)⟩

/-! ## Lemmas about the view state machine -/

theorem mem_addClassL (cs : List String) (c x : String) :
    x ∈ addClassL cs c ↔ (x ∈ cs ∨ x = c) := by
  unfold addClassL
  by_cases h : c ∈ cs
  · simp only [if_pos h]
    constructor
    · exact Or.inl
    · rintro (hx | rfl)
      · exact hx
      · exact h
  · simp [if_neg h]

theorem mem_removeClassL (cs : List String) (c x : String) :
    x ∈ removeClassL cs c ↔ (x ∈ cs ∧ x ≠ c) := by
  simp [removeClassL]

theorem sel_ne_marked : SELECTED_CLASS ≠ MARKED_CLASS := by decide

theorem sel_ne_focused : SELECTED_CLASS ≠ FOCUSED_CLASS := by decide

theorem marked_ne_sel : MARKED_CLASS ≠ SELECTED_CLASS := by decide

theorem marked_ne_focused : MARKED_CLASS ≠ FOCUSED_CLASS := by decide

theorem focused_ne_sel : FOCUSED_CLASS ≠ SELECTED_CLASS := by decide

theorem focused_ne_marked : FOCUSED_CLASS ≠ MARKED_CLASS := by decide

/-- C1: after an update is applied, each of the three facet flags is
active exactly when its facet is true, and no class other than the
three facet flags is affected. -/
theorem base_update_flags (m : ICellModel) (cs : List String) :
    ((SELECTED_CLASS ∈ baseUpdateClasses m cs) ↔ m.selected = true)
    ∧ ((MARKED_CLASS ∈ baseUpdateClasses m cs) ↔ m.marked = true)
    ∧ ((FOCUSED_CLASS ∈ baseUpdateClasses m cs) ↔ m.focused = true)
    ∧ (∀ c : String, c ≠ SELECTED_CLASS → c ≠ MARKED_CLASS →
        c ≠ FOCUSED_CLASS → ((c ∈ baseUpdateClasses m cs) ↔ c ∈ cs)) := by
  unfold baseUpdateClasses
  cases hs : m.selected <;> cases hm : m.marked <;> cases hf : m.focused <;>
    refine ⟨?_, ?_, ?_, fun c hc1 hc2 hc3 => ?_⟩ <;>
    simp [mem_addClassL, mem_removeClassL, sel_ne_marked, sel_ne_focused,
      marked_ne_sel, marked_ne_focused, focused_ne_sel, focused_ne_marked, *]

/-- C1 witness: a concrete model with `selected` and `focused` true, on
a class list holding only the base cell class, which is unaffected. -/
theorem base_update_flags_witness :
    ((SELECTED_CLASS ∈ baseUpdateClasses modelRWit [CELL_CLASS])
      ↔ modelRWit.selected = true)
    ∧ ((CELL_CLASS ∈ baseUpdateClasses modelRWit [CELL_CLASS])
      ↔ CELL_CLASS ∈ [CELL_CLASS]) :=
  ⟨(base_update_flags modelRWit [CELL_CLASS]).1,
   (base_update_flags modelRWit [CELL_CLASS]).2.2.2 CELL_CLASS
     (by decide) (by decide) (by decide)⟩

/-- C4: a notification reporting the `focused` facet with a true new
value invokes the editor focus synchronously inside the handler (the
handler's whole trace is that one focus call), while the visual state —
classes, layout, rendered HTML — is untouched and the batched visual
update is merely scheduled for later application. -/
theorem focus_sync_in_handler (w : MdWidget) :
    (mdOnModelChanged w { name := "focused", newValue := true }).2
        = [Ev.focusEv]
    ∧ (mdOnModelChanged w { name := "focused", newValue := true }).1.classes
        = w.classes
    ∧ (mdOnModelChanged w
        { name := "focused", newValue := true }).1.layoutChildren
        = w.layoutChildren
    ∧ (mdOnModelChanged w
        { name := "focused", newValue := true }).1.renderedHTML
        = w.renderedHTML
    ∧ (mdOnModelChanged w
        { name := "focused", newValue := true }).1.pendingUpdate = true := by
  simp [mdOnModelChanged, baseOnModelChanged]

/-- C2: every `rendered` facet notification sets the dirty flag; a
toggle of the facet to true followed by the drain of the update queue
runs exactly one markdown conversion, whatever the current text and
dirty state; and an applied update re-renders (exactly once) whenever
the widget is dirty while the facet is true. -/
theorem render_once_per_toggle (conv : List Char → List Char)
    (m : ICellModel) (w : MdWidget) (v : Bool) :
    ((mdOnModelChanged w { name := "rendered", newValue := v }).1.dirty
        = true)
    ∧ (m.rendered = true →
        (notifyThenDrain conv m w
          { name := "rendered", newValue := true }).2.count Ev.convertEv = 1)
    ∧ (m.rendered = true → w.dirty = true →
        (mdOnUpdateRequest conv m w).2.count Ev.convertEv = 1) := by
  refine ⟨?_, fun hr => ?_, fun hr hd => ?_⟩
  · simp [mdOnModelChanged, baseOnModelChanged]
  · simp [notifyThenDrain, mdOnModelChanged, baseOnModelChanged, drain,
      mdOnUpdateRequest, mdRenderStep, hr, renderEvents]
  · simp [mdOnUpdateRequest, mdRenderStep, hr, hd, renderEvents]

/-- C2 witness: a rendered model and a dirty widget. -/
theorem render_once_per_toggle_witness :
    modelRWit.rendered = true ∧ widgetWit.dirty = true
    ∧ (notifyThenDrain idConv modelRWit widgetWit
        { name := "rendered", newValue := true }).2.count Ev.convertEv = 1
    ∧ (mdOnUpdateRequest idConv modelRWit widgetWit).2.count Ev.convertEv
        = 1 :=
  ⟨rfl, rfl,
   (render_once_per_toggle idConv modelRWit widgetWit true).2.1 rfl,
   (render_once_per_toggle idConv modelRWit widgetWit true).2.2 rfl rfl⟩

/-- C5 counterexample: applying an update while the `rendered` facet is
false does not leave the dirty flag unchanged: on a dirty widget in
Editing state the update clears it (line 246 of the source runs
unconditionally). -/
theorem dirty_cleared_in_editing_cex :
    (mdOnUpdateRequest idConv modelEWit widgetWit).1.dirty
      ≠ widgetWit.dirty := by
  decide

/-- C5 amended: the dirty flag is cleared by every applied update,
whether or not a re-render ran — in particular an update applied while
the `rendered` facet is false (Editing state) also clears it. -/
theorem dirty_false_after_update (conv : List Char → List Char)
    (m : ICellModel) (w : MdWidget) :
    (mdOnUpdateRequest conv m w).1.dirty = false := by
  cases hr : m.rendered <;> simp [mdOnUpdateRequest, mdRenderStep, hr]

/-- C6: if the widget is not dirty when an update is applied with the
`rendered` facet true, the previously rendered content is reused: no
math extraction, markdown conversion, HTML replacement or typesetting
happens (the event trace is empty) and the rendered HTML is unchanged. -/
theorem clean_update_no_recompute (conv : List Char → List Char)
    (m : ICellModel) (w : MdWidget) (hr : m.rendered = true)
    (hd : w.dirty = false) :
    (mdOnUpdateRequest conv m w).2 = []
    ∧ (mdOnUpdateRequest conv m w).1.renderedHTML = w.renderedHTML := by
  simp [mdOnUpdateRequest, mdRenderStep, hr, hd]

/-- C6 witness: a clean widget under a rendered model. -/
theorem clean_update_no_recompute_witness :
    (modelRWit.rendered = true ∧ widgetCleanWit.dirty = false)
    ∧ ((mdOnUpdateRequest idConv modelRWit widgetCleanWit).2 = []
       ∧ (mdOnUpdateRequest idConv modelRWit widgetCleanWit).1.renderedHTML
          = widgetCleanWit.renderedHTML) :=
  ⟨⟨rfl, rfl⟩, clean_update_no_recompute idConv modelRWit widgetCleanWit
    rfl rfl⟩

/-- C7 counterexample: immediately after construction it is not the
case that exactly one of the two sub-views is attached to the layout
with the other detached — the constructor attaches both (lines 213-214)
and no code path ever removes either. -/
theorem single_attached_cex :
    ¬(((Child.inputW ∈ (mdConstruct modelEWit [] 0).widget.layoutChildren)
        ∧ Child.renderedW ∉ (mdConstruct modelEWit [] 0).widget.layoutChildren)
      ∨ ((Child.inputW ∉ (mdConstruct modelEWit [] 0).widget.layoutChildren)
        ∧ Child.renderedW ∈
            (mdConstruct modelEWit [] 0).widget.layoutChildren)) := by
  decide

/-- C7 amended: both sub-views stay attached to the stacked layout;
construction attaches the input view then the rendered view, and every
applied update moves exactly the sub-view selected by the `rendered`
facet to the top stacking slot (index 1), the other remaining attached
beneath it. -/
theorem both_attached_top_selected (m : ICellModel) (subs : List Nat)
    (v : Nat) (conv : List Char → List Char) (m2 : ICellModel)
    (w : MdWidget)
    (hw : w.layoutChildren = [Child.inputW, Child.renderedW]
        ∨ w.layoutChildren = [Child.renderedW, Child.inputW]) :
    (mdConstruct m subs v).widget.layoutChildren
        = [Child.inputW, Child.renderedW]
    ∧ (mdOnUpdateRequest conv m2 w).1.layoutChildren
        = (if m2.rendered then [Child.inputW, Child.renderedW]
           else [Child.renderedW, Child.inputW]) := by
  constructor
  · rfl
  · rcases hw with h | h <;> cases hr : m2.rendered <;>
      cases hd : w.dirty <;>
      simp [mdOnUpdateRequest, mdRenderStep, insertChild, h, hr, hd]

/-- C7 amended witness: an update with the `rendered` facet true moves
the rendered view to the top slot. -/
theorem both_attached_top_selected_witness :
    (widgetWit.layoutChildren = [Child.inputW, Child.renderedW]
      ∨ widgetWit.layoutChildren = [Child.renderedW, Child.inputW])
    ∧ ((mdConstruct modelEWit [] 0).widget.layoutChildren
        = [Child.inputW, Child.renderedW]
       ∧ (mdOnUpdateRequest idConv modelRWit widgetWit).1.layoutChildren
          = (if modelRWit.rendered then [Child.inputW, Child.renderedW]
             else [Child.renderedW, Child.inputW])) :=
  ⟨Or.inl rfl, both_attached_top_selected modelEWit [] 0 idConv modelRWit
    widgetWit (Or.inl rfl)⟩

/-- C8 counterexample: a markdown view constructed over a model whose
`rendered` facet is false is dirty, yet the very first drained update
after construction performs no markdown conversion — it only shows the
editor. -/
theorem first_update_renders_cex :
    (mdConstruct modelEWit [] 0).widget.dirty = true
    ∧ Ev.convertEv ∉
        (drain idConv (mdConstruct modelEWit [] 0).model
          (mdConstruct modelEWit [] 0).widget).2 := by
  decide

/-- C8 amended: a markdown view is constructed with the dirty flag true
and an update pending, so the very first drained update runs the render
computation exactly once provided the model's `rendered` facet is true
at that point; with the facet false it runs no render computation. -/
theorem constructed_dirty_first_update (m : ICellModel) (subs : List Nat)
    (v : Nat) (conv : List Char → List Char) :
    (mdConstruct m subs v).widget.dirty = true
    ∧ (m.rendered = true →
        (drain conv (mdConstruct m subs v).model
          (mdConstruct m subs v).widget).2.count Ev.convertEv = 1)
    ∧ (m.rendered = false →
        (drain conv (mdConstruct m subs v).model
          (mdConstruct m subs v).widget).2.count Ev.convertEv = 0) := by
  refine ⟨rfl, fun hr => ?_, fun hr => ?_⟩ <;>
    simp [drain, mdConstruct, mdOnUpdateRequest, mdRenderStep,
      connectModel, hr, renderEvents]

/-- C8 amended witness: construction over a rendered model, first drain
renders once. -/
theorem constructed_dirty_first_update_witness :
    modelRWit.rendered = true
    ∧ (drain idConv (mdConstruct modelRWit [] 0).model
        (mdConstruct modelRWit [] 0).widget).2.count Ev.convertEv = 1 :=
  ⟨rfl, (constructed_dirty_first_update modelRWit [] 0 idConv).2.1 rfl⟩

/-- C9: construction registers exactly one change callback of the view
on the model's subscription list (the count for the view rises by one),
and disposal deregisters it: afterwards no callback of that view
remains subscribed. -/
theorem subscribe_once_unsubscribe_all (m : ICellModel) (subs : List Nat)
    (v : Nat) :
    ((mdConstruct m subs v).subs.count v = subs.count v + 1)
    ∧ ((disposeView (mdConstruct m subs v).subs v).count v = 0) := by
  constructor
  · simp [mdConstruct, connectModel]
  · simp [mdConstruct, connectModel, disposeView, List.count_eq_zero,
      List.mem_filter]

/-- C10: constructing a markdown cell view mutates the bound model: for
every model, the input sub-model's editor mimetype is set to
`text/x-ipythongfm`, while the text and the four facets are left
unchanged. -/
theorem construct_sets_mimetype (m : ICellModel) (subs : List Nat)
    (v : Nat) :
    (mdConstruct m subs v).model.input.textEditor.mimetype
        = "text/x-ipythongfm"
    ∧ (mdConstruct m subs v).model.input.textEditor.text
        = m.input.textEditor.text
    ∧ (mdConstruct m subs v).model.selected = m.selected
    ∧ (mdConstruct m subs v).model.marked = m.marked
    ∧ (mdConstruct m subs v).model.focused = m.focused
    ∧ (mdConstruct m subs v).model.rendered = m.rendered := by
  simp [mdConstruct]
